import Mathlib

/-!
Shallow embedding of the `hr/mute` Haxball Headless Manager plugin
(`src/src/hr/always-one-admin.js`, second part of the file): the mute store,
identifier parsing, authorization gates, chat policy, the four commands and
the persistence hooks.  JavaScript numbers are modelled as rationals (the
values the plugin manipulates are ids and indices; IEEE-754 rounding plays no
role at these magnitudes), JavaScript strings as Lean strings, and the
`string|number` union type of arguments as `JsVal`.
-/

set_option maxHeartbeats 1000000

namespace HrMute

/-- A JavaScript value of the `string|number` union used for command
arguments and ids.  `NaN` never has to be represented: the source only
produces it through `+x` coercion, which is modelled by the `Option`-valued
`jsToNumber` (with `none` playing the role of `NaN`). -/
inductive JsVal where
  | num (q : ℚ)
  | str (s : String)
deriving DecidableEq, Repr

/-- Numeric value of a decimal digit character. -/
def digitVal (c : Char) : ℕ := c.toNat - 48

/-- Value of a most-significant-first list of decimal digit characters. -/
def digitsVal (cs : List Char) : ℕ := cs.foldl (fun a c => 10 * a + digitVal c) 0

/-- The whitespace characters recognised when modelling JavaScript string
trimming inside `ToNumber`. -/
def isJsSpace (c : Char) : Bool := c == ' ' || c == '\t' || c == '\n' || c == '\r'

/-- Strip leading and trailing whitespace, as ECMAScript `ToNumber` does to a
string operand before parsing it. -/
def trimChars (cs : List Char) : List Char :=
  ((cs.dropWhile isJsSpace).reverse.dropWhile isJsSpace).reverse

/-- Parse an unsigned decimal literal `digits`, `digits.digits`, `digits.` or
`.digits` (the decimal forms of ECMAScript's StrUnsignedDecimalLiteral; the
`Infinity`, exponent and hex forms are not modelled — no statement in this
development exercises them). -/
def parseUnsignedDec (cs : List Char) : Option ℚ :=
  let intPart := cs.takeWhile Char.isDigit
  match cs.dropWhile Char.isDigit with
  | [] => if intPart.isEmpty then none else some ((digitsVal intPart : ℕ) : ℚ)
  | '.' :: frac =>
    if frac.all Char.isDigit && !(intPart.isEmpty && frac.isEmpty) then
      some (((digitsVal intPart : ℕ) : ℚ) + ((digitsVal frac : ℕ) : ℚ) / (10 : ℚ) ^ frac.length)
    else none
  | _ => none

/-- ECMAScript `ToNumber` on a string, modelled over the character list:
trim, empty means `0`, optional sign, then an unsigned decimal literal.
`none` models `NaN`. -/
def jsStrToNumberChars (cs : List Char) : Option ℚ :=
  let t := trimChars cs
  if t.isEmpty then some 0
  else if t.headD ' ' = '+' then parseUnsignedDec t.tail
  else if t.headD ' ' = '-' then (parseUnsignedDec t.tail).map (fun x => -x)
  else parseUnsignedDec t

/-- ECMAScript `ToNumber` on a string. -/
def jsStrToNumber (s : String) : Option ℚ := jsStrToNumberChars s.toList

/-- The `+x` coercion applied by the source (`+pId`, `+indexOrPlayerId`);
`none` models `NaN`, so `isNaN(+x)` is `(jsToNumber x).isNone`. -/
def jsToNumber : JsVal → Option ℚ
  | .num q => some q
  | .str s => jsStrToNumber s

/-- `s.startsWith("#")` from the source: the first character is `#`. -/
def startsWithHash (s : String) : Bool :=
  match s.toList with
  | c :: _ => c == '#'
  | [] => false

/-- `s.slice(1)` from the source (drop the first character). -/
def strDrop1 (s : String) : String := ⟨s.toList.drop 1⟩

/-- `parseId` from the source: if `+id` is not `NaN` return it; otherwise,
when the argument is a string starting with `#`, coerce the rest and return
it unless that is `NaN`; otherwise return `null` (modelled as `none`). -/
def parseId (id : JsVal) : Option ℚ :=
  match jsToNumber id with
  | some n => some n
  | none =>
    match id with
    | .str s => if startsWithHash s then jsStrToNumber (strDrop1 s) else none
    | .num _ => none

/-- Most-significant-first decimal digit characters of a natural number. -/
def natNumeral (n : ℕ) : List Char :=
  if _h : n < 10 then [Nat.digitChar n]
  else natNumeral (n / 10) ++ [Nat.digitChar (n % 10)]
termination_by n
decreasing_by exact Nat.div_lt_self (by omega) (by omega)

/-- Decimal numeral of an integer, with a leading minus sign when negative. -/
def intNumeral (n : ℤ) : List Char :=
  if n < 0 then '-' :: natNumeral n.natAbs else natNumeral n.toNat

/-- Decimal numeral of a natural number, as a string. -/
def natRepr (n : ℕ) : String := ⟨natNumeral n⟩

/-- JavaScript `ToString` on a number, modelled for integral values only: an
integral number prints as its decimal numeral.  Non-integral values (which no
statement in this development exercises in a message) fall back to a
numerator-slash-denominator form rather than ECMAScript decimal notation. -/
def jsNumToString (q : ℚ) : String :=
  if q.den = 1 then ⟨intNumeral q.num⟩ else ⟨intNumeral q.num⟩ ++ ("/") ++ natRepr q.den

/-- The value interpolated for a `JsVal` inside a template literal. -/
def jsValDisplay : JsVal → String
  | .num q => jsNumToString q
  | .str s => s

/-- A HaxBall player object, restricted to the fields the plugin reads:
`id`, `name`, `conn` (the stable per-connection identity token) and `team`. -/
structure Player where
  id : ℚ
  name : String
  conn : String
  team : ℚ
deriving DecidableEq, Repr

/-- The module-level `muteMap`, a JavaScript `Map` from conn string to the
muted player's snapshot, modelled as its entry list in iteration
(= insertion) order. -/
abbrev MuteMap := List (String × Player)

/-- `muteMap.has(k)`. -/
def mapHas (m : MuteMap) (k : String) : Bool := m.any (fun e => e.1 == k)

/-- `muteMap.set(k, v)`: per the ECMAScript `Map` specification, an existing
key keeps its position in iteration order and only its value is replaced; a
new key is appended at the end. -/
def mapSet (m : MuteMap) (k : String) (v : Player) : MuteMap :=
  if mapHas m k then m.map (fun e => if e.1 == k then (k, v) else e)
  else m ++ [(k, v)]

/-- `muteMap.delete(k)` (a `Map` holds a key at most once, so removing every
entry with the key is the same as removing the one entry). -/
def mapDelete (m : MuteMap) (k : String) : MuteMap :=
  m.filter (fun e => e.1 != k)

/-- The keys of the map in iteration order (`muteMap.keys()`). -/
def mapKeys (m : MuteMap) : List String := m.map Prod.fst

/-- `muteMap.get(k)`. -/
def mapGet (m : MuteMap) (k : String) : Option Player :=
  (m.find? (fun e => e.1 == k)).map Prod.snd

/-- An observable side effect of a handler: `room.sendAnnouncement`, the
`hr/utils` long-message sender, or a `persistPluginData` call on the
`hhm/persistence` plugin.  A `none` target is the `null` (broadcast)
recipient. -/
inductive Effect where
  | announce (msg : String) (target : Option ℚ) (color : ℕ)
  | longAnnounce (msg : String) (target : ℚ) (color : ℕ)
  | persist
deriving DecidableEq, Repr

/-- The `sav/roles` plugin, abstracted to the two queries the source makes. -/
structure RolesPlugin where
  hasPlayerRole : ℚ → String → Bool
  ensurePlayerRoles : ℚ → List String → Bool

/-- The plugin configuration.  `protectedRoles` is `none` when the configured
value is not an array (the `Array.isArray` guard in the source). -/
structure Config where
  muteMessage : String
  protectedRoles : Option (List String)
  allowedRoles : List String
  allowTalkingWhenCaptain : Bool

/-- The ambient room state a handler reads: the configuration, the
`sav/roles` plugin (or `none` when `room.getPlugin` finds nothing) and the
current player list. -/
structure Env where
  config : Config
  roles : Option RolesPlugin
  playerList : List Player

/-- `room.getPlayer` applied to a `parseId` result: `null` in, `null` out;
otherwise the player currently in the room with that id. -/
def getPlayer (players : List Player) : Option ℚ → Option Player
  | none => none
  | some q => players.find? (fun p => p.id == q)

/-- `findPlayerInRoomWithConn` from the source. -/
def findPlayerInRoomWithConn (env : Env) (conn : String) : Option Player :=
  env.playerList.find? (fun p => p.conn == conn)

/-- `isPlayerTeamCaptain` from the source: the player is the first entry of
the room's player list on team 1 (red) or team 2 (blue). -/
def isPlayerTeamCaptain (env : Env) (player : Player) : Bool :=
  let redTeamCap := env.playerList.find? (fun p => p.team == 1)
  let blueTeamCap := env.playerList.find? (fun p => p.team == 2)
  (match redTeamCap with
   | some p => p.id == player.id
   | none => false) ||
  (match blueTeamCap with
   | some p => p.id == player.id
   | none => false)

/-- `isPlayerProtected` from the source.  When the roles plugin is absent and
`protectedRoles` is a nonempty array the source would throw a `TypeError`
dereferencing it; the handlers only reach this function after the
authorization gate has already required the roles plugin to be present, so
that state is unreachable from them and is modelled as `false`. -/
def isPlayerProtected (env : Env) (playerId : ℚ) : Bool :=
  match env.config.protectedRoles with
  | none => false
  | some prs =>
    match env.roles with
    | none => false
    | some roles => prs.any (fun role => roles.hasPlayerRole playerId role)

/-- `isPlayerAllowedToRunCommand` from the source: `false` when the
`sav/roles` plugin is missing, else `ensurePlayerRoles` on the configured
`allowedRoles` (the `room` argument the source also passes carries no data
the query depends on in this model). -/
def isPlayerAllowedToRunCommand (env : Env) (player : Player) : Bool :=
  match env.roles with
  | none => false
  | some roles => roles.ensurePlayerRoles player.id env.config.allowedRoles

/-- Exported `isMuted`. -/
def isMuted (m : MuteMap) (player : Player) : Bool := mapHas m player.conn

/-- `mutePlayer` from the source: insert the snapshot under the player's
conn and persist. -/
def mutePlayer (m : MuteMap) (player : Player) : MuteMap × List Effect :=
  (mapSet m player.conn player, [Effect.persist])

/-- JavaScript strict equality `===` restricted to the values that reach it
in the source (a number loop counter against a `string|number` argument):
operands of different types are never equal. -/
def jsStrictEq : JsVal → JsVal → Bool
  | .num a, .num b => a == b
  | .str a, .str b => a == b
  | _, _ => false

/-- The index-matching loop of `removeMute`: walk the map entries with a
numeric counter starting at `c` and remove the entry at which
`i === indexOrPlayerId` first holds, returning the removed snapshot and the
remaining map.  Note the comparison is against the unconverted argument. -/
def removeLoop (arg : JsVal) : ℕ → MuteMap → Option Player × MuteMap
  | _, [] => (none, [])
  | c, e :: rest =>
    if jsStrictEq (.num (c : ℚ)) arg then (some e.2, rest)
    else
      let r := removeLoop arg (c + 1) rest
      (r.1, e :: r.2)

/-- The index path of `removeMute`: `const index = +indexOrPlayerId; if
(isNaN(index)) return null;` followed by the matching loop; a successful
removal persists. -/
def removeMuteByIndex (m : MuteMap) (arg : JsVal) :
    Option Player × MuteMap × List Effect :=
  match jsToNumber arg with
  | none => (none, m, [])
  | some _ =>
    match removeLoop arg 0 m with
    | (some p, m2) => (some p, m2, [Effect.persist])
    | (none, _) => (none, m, [])

/-- `removeMute` from the source: a string argument starting with `#` is
resolved through `room.getPlayer (parseId ...)` and removed by conn;
any other argument goes through the index-matching loop. -/
def removeMute (env : Env) (m : MuteMap) (arg : JsVal) :
    Option Player × MuteMap × List Effect :=
  match arg with
  | .str s =>
    if startsWithHash s then
      match getPlayer env.playerList (parseId (.str s)) with
      | none => (none, m, [])
      | some removedPlayer =>
        if mapHas m removedPlayer.conn then
          (some removedPlayer, mapDelete m removedPlayer.conn, [Effect.persist])
        else (none, m, [])
    else removeMuteByIndex m (.str s)
  | .num q => removeMuteByIndex m (.num q)

/-- The plain object `serializeMuteMap` builds from the map before
`JSON.stringify`.  Property assignment on a plain object has the same
update-in-place-or-append semantics for string keys as `Map.set`. -/
abbrev JsObj := List (String × Player)

/-- One property assignment `obj[k] = v`. -/
def objSet (o : JsObj) (k : String) (v : Player) : JsObj :=
  if o.any (fun e => e.1 == k) then o.map (fun e => if e.1 == k then (k, v) else e)
  else o ++ [(k, v)]

/-- `serializeMuteMap` from the source: copy the map entries into a plain
object and `JSON.stringify` it.  The opaque JSON string is modelled by the
object's own-property list itself: `JSON.stringify`/`JSON.parse` are a
faithful inverse pair on an object of string keys and JSON-representable
snapshot values, and the numeric reordering ECMAScript applies to
integer-like property keys permutes enumeration order only, never the
key-to-value mapping this development reasons about. -/
def serializeMuteMap (m : MuteMap) : JsObj :=
  m.foldl (fun o e => objSet o e.1 e.2) []

/-- `deserializeMuteMap` from the source: rebuild a `Map` from the parsed
object's own properties in order. -/
def deserializeMuteMap (data : JsObj) : MuteMap :=
  data.foldl (fun dm e => mapSet dm e.1 e.2) []

/-- `handlePersistData` (the `onPersist` hook). -/
def handlePersistData (m : MuteMap) : JsObj := serializeMuteMap m

/-- `handleRestoreData` (the `onRestore` hook): `undefined` (`none`) leaves
the module-level map untouched; otherwise the map is replaced wholesale. -/
def handleRestoreData (m : MuteMap) : Option JsObj → MuteMap
  | none => m
  | some data => deserializeMuteMap data

/-- The `!mute` handler (`onCommand1_mute`): result map and emitted effects. -/
def muteCmd (env : Env) (m : MuteMap) (byPlayer : Player) (id : JsVal) :
    MuteMap × List Effect :=
  if !(isPlayerAllowedToRunCommand env byPlayer) then (m, [])
  else
    match getPlayer env.playerList (parseId id) with
    | none =>
      (m, [Effect.announce (("No player with id ") ++ jsValDisplay id ++ (".")) (some byPlayer.id) 0xff0000])
    | some player =>
      if isPlayerProtected env player.id then
        (m, [Effect.announce ("This player has immunity for mutes.") (some byPlayer.id) 0xff0000])
      else
        let r := mutePlayer m player
        (r.1, r.2 ++
          [Effect.announce (("Player ") ++ player.name ++ (" muted.")) (some byPlayer.id) 0x00ff00,
           Effect.announce ("You have been muted.") (some player.id) 0xff0000])

/-- The `!unmute` handler (`onCommand1_unmute`). -/
def unmuteCmd (env : Env) (m : MuteMap) (byPlayer : Player) (muteNumber : JsVal) :
    MuteMap × List Effect :=
  if !(isPlayerAllowedToRunCommand env byPlayer) then (m, [])
  else
    match removeMute env m muteNumber with
    | (none, m2, effs) =>
      (m2, effs ++
        [Effect.announce (("Could not unmute ") ++ jsValDisplay muteNumber ++
          ("! Make sure the argument is either a number listed in !mutelist or player ID prefixed with #."))
          (some byPlayer.id) 0xff0000])
    | (some unmutedPlayer, m2, effs) =>
      let base := effs ++
        [Effect.announce (("Player ") ++ unmutedPlayer.name ++ (" unmuted.")) (some byPlayer.id) 0x00ff00]
      match findPlayerInRoomWithConn env unmutedPlayer.conn with
      | some playerInRoom =>
        (m2, base ++ [Effect.announce ("You have been unmuted.") (some playerInRoom.id) 0x00ff00])
      | none => (m2, base)

/-- The `!clearmutes` handler (`onCommand0_clearmutes`): empties the map and
broadcasts; the source calls no persistence here. -/
def clearmutesCmd (env : Env) (m : MuteMap) (byPlayer : Player) :
    MuteMap × List Effect :=
  if !(isPlayerAllowedToRunCommand env byPlayer) then (m, [])
  else ([], [Effect.announce ("All mutes cleared!") none 0x00ff00])

/-- The `!mutelist` handler (`onCommand0_mutelist`). -/
def mutelistCmd (env : Env) (m : MuteMap) (byPlayer : Player) :
    MuteMap × List Effect :=
  if !(isPlayerAllowedToRunCommand env byPlayer) then (m, [])
  else if m.length == 0 then
    (m, [Effect.announce ("No muted players.") (some byPlayer.id) 0xff0000])
  else
    (m, [Effect.announce ("MUTE_NUMBER - PLAYER") (some byPlayer.id) 0x00ff00,
         Effect.longAnnounce
           (String.intercalate ("\n")
             (m.enum.map (fun e => natRepr e.1 ++ (" - ") ++ e.2.2.name)))
           byPlayer.id 0x00ff00])

/-- `handlePlayerChat` (the `onPlayerChat` hook): the boolean is whether the
message is allowed through (the source returns `undefined` to allow and
`false` to suppress). -/
def handlePlayerChat (env : Env) (m : MuteMap) (player : Player) :
    Bool × List Effect :=
  if isMuted m player then
    if env.config.allowTalkingWhenCaptain && isPlayerTeamCaptain env player then
      (true, [])
    else
      (false, [Effect.announce env.config.muteMessage (some player.id) 0xff0000])
  else (true, [])

/-- A store-level mutation, as performed by the mute and unmute commands. -/
inductive MuteOp where
  | mute (p : Player)
  | unmute (env : Env) (arg : JsVal)

/-- Apply one mutation to the store. -/
def applyOp (m : MuteMap) : MuteOp → MuteMap
  | .mute p => (mutePlayer m p).1
  | .unmute env arg => (removeMute env m arg).2.1

/-- The store reached from the empty map by a sequence of mute/unmute
operations. -/
def applyOps (ops : List MuteOp) : MuteMap := ops.foldl applyOp []

/-! Concrete sample data used by witnesses and counterexamples. -/

/-- Sample player on conn `a`. -/
def pA : Player := ⟨1, ("Alice"), ("a"), 1⟩

/-- A later snapshot of the player on conn `a` (same conn, new name). -/
def pA2 : Player := ⟨7, ("Alice2"), ("a"), 2⟩

/-- Sample player on conn `b`. -/
def pB : Player := ⟨2, ("Bob"), ("b"), 2⟩

/-- Sample player on conn `c`. -/
def pC : Player := ⟨3, ("Carol"), ("c"), 0⟩

/-- Sample actor running commands. -/
def pAdmin : Player := ⟨9, ("Admin"), ("z"), 0⟩

/-- A roles plugin granting every role query. -/
def rolesAll : RolesPlugin := ⟨fun _ _ => true, fun _ _ => true⟩

/-- An environment with a permissive roles plugin and players `pA`, `pB`,
`pC`, `pAdmin` in the room. -/
def envAll : Env :=
  ⟨⟨("You cannot send messages because you are muted."), some [("admin")], [("admin")], false⟩,
   some rolesAll, [pA, pB, pC, pAdmin]⟩

/-- Like `envAll` but with the captain exception enabled
(`allowTalkingWhenCaptain = true`). -/
def envCap : Env :=
  ⟨⟨("You cannot send messages because you are muted."), some [("admin")], [("admin")], true⟩,
   some rolesAll, [pA, pB, pC, pAdmin]⟩

/-- A minimal environment with no roles plugin and an empty room. -/
def env0 : Env :=
  ⟨⟨("You cannot send messages because you are muted."), some [("admin")], [("admin")], false⟩,
   none, []⟩

/-- A roles plugin where only player id 2 holds the `admin` role, while
every `ensurePlayerRoles` query passes. -/
def rolesOnly2 : RolesPlugin := ⟨fun pid _ => pid == 2, fun _ _ => true⟩

/-- Environment for the protected-target scenario: `pB` (id 2) is protected,
commands are allowed for everyone. -/
def envProt : Env :=
  ⟨⟨("You cannot send messages because you are muted."), some [("admin")], [("admin")], false⟩,
   some rolesOnly2, [pA, pB, pAdmin]⟩

/-! Helper lemmas about digits, numerals and the string-to-number coercion. -/

lemma digitVal_digitChar {r : ℕ} (h : r < 10) : digitVal (Nat.digitChar r) = r := by
  interval_cases r <;> decide

lemma isDigit_digitChar {r : ℕ} (h : r < 10) : (Nat.digitChar r).isDigit = true := by
  interval_cases r <;> decide

lemma ne_plus_of_isDigit {c : Char} (h : c.isDigit = true) : c ≠ '+' := by
  intro he
  subst he
  exact absurd h (by decide)

lemma ne_minus_of_isDigit {c : Char} (h : c.isDigit = true) : c ≠ '-' := by
  intro he
  subst he
  exact absurd h (by decide)

lemma not_space_of_isDigit {c : Char} (h : c.isDigit = true) : isJsSpace c = false := by
  have h1 : c ≠ ' ' := by intro he; subst he; exact absurd h (by decide)
  have h2 : c ≠ '\t' := by intro he; subst he; exact absurd h (by decide)
  have h3 : c ≠ '\n' := by intro he; subst he; exact absurd h (by decide)
  have h4 : c ≠ '\r' := by intro he; subst he; exact absurd h (by decide)
  simp [isJsSpace, h1, h2, h3, h4]

lemma natNumeral_ne_nil (n : ℕ) : natNumeral n ≠ [] := by
  rw [natNumeral]
  split <;> simp

lemma isDigit_of_mem_natNumeral {n : ℕ} : ∀ c ∈ natNumeral n, c.isDigit = true := by
  induction n using Nat.strong_induction_on with
  | _ n ih =>
    rw [natNumeral]
    split
    · intro c hc
      rw [List.mem_singleton] at hc
      subst hc
      exact isDigit_digitChar (by omega)
    · intro c hc
      rcases List.mem_append.mp hc with hc | hc
      · exact ih (n / 10) (Nat.div_lt_self (by omega) (by omega)) c hc
      · rw [List.mem_singleton] at hc
        subst hc
        exact isDigit_digitChar (Nat.mod_lt _ (by omega))

lemma digitsVal_append_single (xs : List Char) (c : Char) :
    digitsVal (xs ++ [c]) = 10 * digitsVal xs + digitVal c := by
  simp [digitsVal, List.foldl_append]

lemma digitsVal_natNumeral (n : ℕ) : digitsVal (natNumeral n) = n := by
  induction n using Nat.strong_induction_on with
  | _ n ih =>
    rw [natNumeral]
    split
    · next h =>
      simp [digitsVal, digitVal_digitChar h]
    · next h =>
      rw [digitsVal_append_single, ih (n / 10) (Nat.div_lt_self (by omega) (by omega)),
        digitVal_digitChar (Nat.mod_lt _ (by omega))]
      omega

lemma dropWhile_eq_self_of_head {p : Char → Bool} :
    ∀ {cs : List Char}, (∀ c ∈ cs, p c = false) → cs.dropWhile p = cs
  | [], _ => rfl
  | c :: cs, h => by
    rw [List.dropWhile_cons, h c (List.mem_cons_self c cs)]
    simp

lemma trimChars_eq_self {cs : List Char} (h : ∀ c ∈ cs, isJsSpace c = false) :
    trimChars cs = cs := by
  unfold trimChars
  rw [dropWhile_eq_self_of_head h, dropWhile_eq_self_of_head (fun c hc => h c (by
    rw [List.mem_reverse] at hc
    exact hc)), List.reverse_reverse]

lemma takeWhile_eq_self_of_all {p : Char → Bool} :
    ∀ {cs : List Char}, (∀ c ∈ cs, p c = true) → cs.takeWhile p = cs
  | [], _ => rfl
  | c :: cs, h => by
    rw [List.takeWhile_cons, h c (List.mem_cons_self c cs)]
    simp only [if_true]
    rw [takeWhile_eq_self_of_all (fun d hd => h d (List.mem_cons_of_mem c hd))]

lemma dropWhile_eq_nil_of_all {p : Char → Bool} :
    ∀ {cs : List Char}, (∀ c ∈ cs, p c = true) → cs.dropWhile p = []
  | [], _ => rfl
  | c :: cs, h => by
    rw [List.dropWhile_cons, h c (List.mem_cons_self c cs)]
    simp only [if_true]
    exact dropWhile_eq_nil_of_all (fun d hd => h d (List.mem_cons_of_mem c hd))

lemma parseUnsignedDec_all_digits {cs : List Char} (hne : cs ≠ [])
    (h : ∀ c ∈ cs, c.isDigit = true) :
    parseUnsignedDec cs = some ((digitsVal cs : ℕ) : ℚ) := by
  unfold parseUnsignedDec
  rw [takeWhile_eq_self_of_all h, dropWhile_eq_nil_of_all h]
  simp [List.isEmpty_iff, hne]

lemma jsStrToNumberChars_all_digits {cs : List Char} (hne : cs ≠ [])
    (h : ∀ c ∈ cs, c.isDigit = true) :
    jsStrToNumberChars cs = some ((digitsVal cs : ℕ) : ℚ) := by
  unfold jsStrToNumberChars
  simp only [trimChars_eq_self (fun c hc => not_space_of_isDigit (h c hc))]
  obtain ⟨c, rest, rfl⟩ := List.exists_cons_of_ne_nil hne
  have hd := h c (List.mem_cons_self c rest)
  rw [if_neg (by simp), List.headD_cons, if_neg (ne_plus_of_isDigit hd),
    if_neg (ne_minus_of_isDigit hd)]
  exact parseUnsignedDec_all_digits hne h

lemma jsStrToNumberChars_natNumeral (n : ℕ) :
    jsStrToNumberChars (natNumeral n) = some ((n : ℕ) : ℚ) := by
  rw [jsStrToNumberChars_all_digits (natNumeral_ne_nil n) isDigit_of_mem_natNumeral,
    digitsVal_natNumeral]

lemma jsStrToNumberChars_neg_natNumeral (n : ℕ) :
    jsStrToNumberChars ('-' :: natNumeral n) = some (-((n : ℕ) : ℚ)) := by
  unfold jsStrToNumberChars
  have hall : ∀ c ∈ '-' :: natNumeral n, isJsSpace c = false := by
    intro c hc
    rcases List.mem_cons.mp hc with hc | hc
    · subst hc; decide
    · exact not_space_of_isDigit (isDigit_of_mem_natNumeral c hc)
  simp only [trimChars_eq_self hall, List.headD_cons, List.tail_cons]
  rw [if_neg (by simp), if_neg (by decide : ¬(('-' : Char) = '+')), if_pos (by trivial)]
  rw [parseUnsignedDec_all_digits (natNumeral_ne_nil n) isDigit_of_mem_natNumeral,
    digitsVal_natNumeral]
  rfl

lemma jsStrToNumberChars_intNumeral (n : ℤ) :
    jsStrToNumberChars (intNumeral n) = some ((n : ℤ) : ℚ) := by
  unfold intNumeral
  split
  · next h =>
    rw [jsStrToNumberChars_neg_natNumeral]
    have h2 : ((n.natAbs : ℕ) : ℚ) = -(n : ℚ) := by
      rw [Int.cast_natAbs, Int.cast_abs]
      exact abs_of_neg (by exact_mod_cast h)
    rw [h2, neg_neg]
  · next h =>
    rw [jsStrToNumberChars_natNumeral]
    have h3 : ((n.toNat : ℕ) : ℤ) = n := by omega
    have h2 : ((n.toNat : ℕ) : ℚ) = (n : ℚ) := by
      exact_mod_cast h3
    rw [h2]

lemma dropWhile_append_single {p : Char → Bool} {c : Char} (hc : p c = false) :
    ∀ xs : List Char, (xs ++ [c]).dropWhile p = xs.dropWhile p ++ [c]
  | [] => by simp [List.dropWhile_cons, hc]
  | x :: xs => by
    rw [List.cons_append, List.dropWhile_cons, List.dropWhile_cons]
    by_cases hx : p x
    · rw [hx]
      simp only [if_true]
      exact dropWhile_append_single hc xs
    · rw [Bool.not_eq_true] at hx
      rw [hx]
      simp

lemma trimChars_cons_of_head {c : Char} {cs : List Char} (hc : isJsSpace c = false) :
    trimChars (c :: cs) = c :: (cs.reverse.dropWhile isJsSpace).reverse := by
  unfold trimChars
  rw [List.dropWhile_cons, hc]
  simp only [Bool.false_eq_true, if_false]
  rw [List.reverse_cons, dropWhile_append_single hc, List.reverse_append]
  rfl

lemma parseUnsignedDec_bad_head {c : Char} {cs : List Char}
    (h1 : c.isDigit = false) (h2 : c ≠ '.') : parseUnsignedDec (c :: cs) = none := by
  unfold parseUnsignedDec
  rw [List.takeWhile_cons, List.dropWhile_cons, h1]
  simp only [Bool.false_eq_true, if_false]
  split
  · next heq => exact absurd heq (by simp)
  · next frac heq =>
    exact absurd (List.head_eq_of_cons_eq heq.symm) (fun hh => h2 hh.symm)
  · rfl

lemma jsStrToNumberChars_hash_head (rest : List Char) :
    jsStrToNumberChars ('#' :: rest) = none := by
  unfold jsStrToNumberChars
  rw [trimChars_cons_of_head (by decide)]
  simp only [List.isEmpty_cons, List.headD_cons, List.tail_cons]
  rw [if_neg (by simp), if_neg (by decide : ¬(('#' : Char) = '+')),
    if_neg (by decide : ¬(('#' : Char) = '-'))]
  exact parseUnsignedDec_bad_head (by decide) (by decide)

lemma parseId_num (q : ℚ) : parseId (.num q) = some q := rfl

lemma jsStrToNumber_mk (l : List Char) : jsStrToNumber ⟨l⟩ = jsStrToNumberChars l := rfl

lemma strDrop1_mk (c : Char) (l : List Char) : strDrop1 ⟨c :: l⟩ = ⟨l⟩ := rfl

lemma parseId_str_coerce {s : String} {q : ℚ} (h : jsStrToNumber s = some q) :
    parseId (.str s) = some q := by
  unfold parseId
  simp [jsToNumber, h]

lemma parseId_str_nan {s : String} (h : jsStrToNumber s = none) :
    parseId (.str s) =
      if startsWithHash s then jsStrToNumber (strDrop1 s) else none := by
  unfold parseId
  simp [jsToNumber, h]

lemma parseId_intNumeral (n : ℤ) : parseId (.str ⟨intNumeral n⟩) = some ((n : ℤ) : ℚ) :=
  parseId_str_coerce (by rw [jsStrToNumber_mk, jsStrToNumberChars_intNumeral])

lemma startsWithHash_cons_hash (l : List Char) : startsWithHash ⟨'#' :: l⟩ = true := rfl

lemma parseId_hash_intNumeral (n : ℤ) :
    parseId (.str ⟨'#' :: intNumeral n⟩) = some ((n : ℤ) : ℚ) := by
  rw [parseId_str_nan (by rw [jsStrToNumber_mk]; exact jsStrToNumberChars_hash_head _)]
  rw [startsWithHash_cons_hash]
  simp only [if_true]
  rw [strDrop1_mk, jsStrToNumber_mk]
  exact jsStrToNumberChars_intNumeral n

lemma jsStrToNumber_none_of_hash {s : String} (h : startsWithHash s = true) :
    jsStrToNumber s = none := by
  unfold startsWithHash at h
  unfold jsStrToNumber
  rcases hs : s.toList with _ | ⟨c, rest⟩
  · rw [hs] at h
    exact absurd h (by simp)
  · rw [hs] at h
    have hc : c = '#' := by simpa using h
    subst hc
    exact jsStrToNumberChars_hash_head rest

lemma parseId_str_nohash_none {s : String} (h1 : startsWithHash s = false)
    (h2 : jsStrToNumber s = none) : parseId (.str s) = none := by
  rw [parseId_str_nan h2, h1]
  simp

lemma parseId_str_hash_none {s : String} (h1 : startsWithHash s = true)
    (h2 : jsStrToNumber (strDrop1 s) = none) : parseId (.str s) = none := by
  rw [parseId_str_nan (jsStrToNumber_none_of_hash h1), h1]
  simp [h2]

/-! Helper lemmas about the removal loop. -/

lemma removeLoop_str (s : String) : ∀ (c : ℕ) (m : MuteMap),
    removeLoop (.str s) c m = (none, m)
  | _, [] => rfl
  | c, e :: rest => by
    rw [removeLoop]
    rw [if_neg (by simp [jsStrictEq])]
    rw [removeLoop_str s (c + 1) rest]

lemma removeLoop_found : ∀ (m : MuteMap) (c i : ℕ) (h : i < m.length),
    removeLoop (.num ((c + i : ℕ) : ℚ)) c m = (some (m.get ⟨i, h⟩).2, m.eraseIdx i)
  | [], _, i, h => absurd h (by simp)
  | e :: rest, c, 0, _ => by
    rw [removeLoop]
    rw [if_pos (by simp [jsStrictEq])]
    rfl
  | e :: rest, c, i + 1, h => by
    rw [removeLoop]
    rw [if_neg (by
      simp only [jsStrictEq, beq_iff_eq]
      intro hq
      have : c = c + (i + 1) := by exact_mod_cast hq
      omega)]
    have h2 : i < rest.length := by
      simpa using Nat.lt_of_succ_lt_succ h
    have h3 : (c + (i + 1) : ℕ) = ((c + 1) + i : ℕ) := by omega
    rw [h3, removeLoop_found rest (c + 1) i h2]
    rfl

lemma removeLoop_notfound : ∀ (m : MuteMap) (c : ℕ) (q : ℚ),
    (∀ i : ℕ, c ≤ i → i < c + m.length → (i : ℚ) ≠ q) →
    removeLoop (.num q) c m = (none, m)
  | [], _, _, _ => rfl
  | e :: rest, c, q, h => by
    rw [removeLoop]
    rw [if_neg (by
      simp only [jsStrictEq, beq_iff_eq]
      exact h c (le_refl c) (by simp))]
    rw [removeLoop_notfound rest (c + 1) q (fun i h1 h2 => h i (by omega) (by
      simp only [List.length_cons]
      omega))]

lemma removeLoop_snd_sublist (arg : JsVal) : ∀ (c : ℕ) (m : MuteMap),
    (removeLoop arg c m).2.Sublist m
  | _, [] => List.Sublist.refl []
  | c, e :: rest => by
    rw [removeLoop]
    split
    · exact List.sublist_cons_self e rest
    · exact List.Sublist.cons₂ e (removeLoop_snd_sublist arg (c + 1) rest)

/-! Helper lemmas about the map operations. -/

lemma mapHas_iff {m : MuteMap} {k : String} : mapHas m k = true ↔ k ∈ mapKeys m := by
  unfold mapHas mapKeys
  rw [List.any_eq_true]
  constructor
  · rintro ⟨e, he, heq⟩
    rw [beq_iff_eq] at heq
    exact heq ▸ List.mem_map_of_mem Prod.fst he
  · intro hk
    rcases List.mem_map.mp hk with ⟨e, he, heq⟩
    exact ⟨e, he, by rw [beq_iff_eq, heq]⟩

lemma mapHas_false_iff {m : MuteMap} {k : String} :
    mapHas m k = false ↔ k ∉ mapKeys m := by
  rw [← mapHas_iff, Bool.not_eq_true]

lemma mapKeys_map_update {m : MuteMap} {k : String} {v : Player} :
    mapKeys (m.map (fun e => if e.1 == k then (k, v) else e)) = mapKeys m := by
  induction m with
  | nil => rfl
  | cons e rest ih =>
    unfold mapKeys at ih ⊢
    rw [List.map_cons, List.map_cons, List.map_cons, ih]
    by_cases he : e.1 = k
    · rw [if_pos (by rw [beq_iff_eq]; exact he)]
      rw [he]
    · rw [if_neg (by rw [beq_iff_eq]; exact he)]

lemma mapKeys_mapSet_of_has {m : MuteMap} {k : String} {v : Player}
    (h : mapHas m k = true) : mapKeys (mapSet m k v) = mapKeys m := by
  unfold mapSet
  rw [h]
  simp only [if_true]
  exact mapKeys_map_update

lemma mapSet_of_not_has {m : MuteMap} {k : String} {v : Player}
    (h : mapHas m k = false) : mapSet m k v = m ++ [(k, v)] := by
  unfold mapSet
  rw [h]
  simp

lemma mapKeys_append (m1 m2 : MuteMap) :
    mapKeys (m1 ++ m2) = mapKeys m1 ++ mapKeys m2 := by
  unfold mapKeys
  exact List.map_append _ _ _

lemma nodup_keys_mapSet {m : MuteMap} {k : String} {v : Player}
    (h : (mapKeys m).Nodup) : (mapKeys (mapSet m k v)).Nodup := by
  cases hk : mapHas m k
  · rw [mapSet_of_not_has hk, mapKeys_append]
    rw [List.nodup_append]
    refine ⟨h, List.nodup_singleton k, ?_⟩
    intro x hx hmem
    rw [show mapKeys [(k, v)] = [k] from rfl, List.mem_singleton] at hmem
    exact (mapHas_false_iff.mp hk) (hmem ▸ hx)
  · rw [mapKeys_mapSet_of_has hk]
    exact h

lemma nodup_keys_sublist {m' m : MuteMap} (hs : m'.Sublist m)
    (h : (mapKeys m).Nodup) : (mapKeys m').Nodup :=
  List.Nodup.sublist (List.Sublist.map Prod.fst hs) h

lemma nodup_keys_removeMute {env : Env} {m : MuteMap} {arg : JsVal}
    (h : (mapKeys m).Nodup) : (mapKeys (removeMute env m arg).2.1).Nodup := by
  unfold removeMute
  match arg with
  | .str s =>
    simp only
    split
    · split
      · exact h
      · split
        · exact nodup_keys_sublist (List.filter_sublist m) h
        · exact h
    · unfold removeMuteByIndex
      split
      · exact h
      · split
        · next p m2 heq =>
          have h2 : (removeLoop (JsVal.str s) 0 m).2 = m2 := by rw [heq]
          exact nodup_keys_sublist (h2 ▸ removeLoop_snd_sublist (.str s) 0 m) h
        · exact h
  | .num q =>
    simp only
    unfold removeMuteByIndex
    split
    · exact h
    · split
      · next p m2 heq =>
        have h2 : (removeLoop (JsVal.num q) 0 m).2 = m2 := by rw [heq]
        exact nodup_keys_sublist (h2 ▸ removeLoop_snd_sublist (.num q) 0 m) h
      · exact h

lemma nodup_keys_foldl : ∀ (ops : List MuteOp) (m : MuteMap),
    (mapKeys m).Nodup → (mapKeys (List.foldl applyOp m ops)).Nodup
  | [], _, h => h
  | op :: ops, m, h => by
    rw [List.foldl_cons]
    refine nodup_keys_foldl ops (applyOp m op) ?_
    cases op with
    | mute p => exact nodup_keys_mapSet h
    | unmute env arg => exact nodup_keys_removeMute h

lemma nodup_keys_applyOps (ops : List MuteOp) : (mapKeys (applyOps ops)).Nodup :=
  nodup_keys_foldl ops [] (by simp [mapKeys])

/-! Helper lemmas for the serialization round trip. -/

lemma objSet_eq_mapSet : objSet = mapSet := by
  funext o k v
  rfl

lemma foldl_mapSet_of_nodup :
    ∀ (l acc : MuteMap), (mapKeys (acc ++ l)).Nodup →
      List.foldl (fun dm e => mapSet dm e.1 e.2) acc l = acc ++ l
  | [], acc, _ => by simp
  | (k, v) :: rest, acc, h => by
    rw [List.foldl_cons]
    have hnomem : k ∉ mapKeys acc ++ mapKeys rest := by
      have h2 := h
      rw [mapKeys_append] at h2
      simp only [mapKeys, List.map_cons] at h2
      rw [List.nodup_middle, List.nodup_cons] at h2
      simpa [mapKeys] using h2.1
    have hacc : mapHas acc k = false := by
      rw [mapHas_false_iff]
      intro hmem
      exact hnomem (List.mem_append_left _ hmem)
    rw [show mapSet acc (k, v).1 (k, v).2 = acc ++ [(k, v)] from mapSet_of_not_has hacc]
    rw [foldl_mapSet_of_nodup rest (acc ++ [(k, v)]) (by
      rw [List.append_assoc, List.singleton_append]
      exact h)]
    rw [List.append_assoc, List.singleton_append]

lemma serializeMuteMap_of_nodup {m : MuteMap} (h : (mapKeys m).Nodup) :
    serializeMuteMap m = m := by
  unfold serializeMuteMap
  rw [objSet_eq_mapSet]
  exact foldl_mapSet_of_nodup m [] (by simpa using h)

lemma deserializeMuteMap_of_nodup {m : MuteMap} (h : (mapKeys m).Nodup) :
    deserializeMuteMap m = m := by
  unfold deserializeMuteMap
  exact foldl_mapSet_of_nodup m [] (by simpa using h)

lemma roundTrip_of_nodup {m : MuteMap} (h : (mapKeys m).Nodup) :
    deserializeMuteMap (serializeMuteMap m) = m := by
  rw [serializeMuteMap_of_nodup h, deserializeMuteMap_of_nodup h]

/-! Evaluation lemmas for `removeMute` on numeric arguments. -/

lemma removeMute_num_found {env : Env} {m : MuteMap} {i : ℕ} (h : i < m.length) :
    removeMute env m (.num (i : ℚ)) =
      (some (m.get ⟨i, h⟩).2, m.eraseIdx i, [Effect.persist]) := by
  unfold removeMute removeMuteByIndex
  simp only [jsToNumber]
  have hl : removeLoop (.num ((i : ℕ) : ℚ)) 0 m = (some (m.get ⟨i, h⟩).2, m.eraseIdx i) := by
    have h2 := removeLoop_found m 0 i h
    simpa using h2
  rw [hl]

lemma removeMute_num_notfound {env : Env} {m : MuteMap} {q : ℚ}
    (h : ∀ i : ℕ, i < m.length → (i : ℚ) ≠ q) :
    removeMute env m (.num q) = (none, m, []) := by
  unfold removeMute removeMuteByIndex
  simp only [jsToNumber]
  rw [removeLoop_notfound m 0 q (fun i _ h2 => h i (by omega))]

/-! The claims. -/

/-- C1: the chat policy allows a message whenever the sender's identity token
is not in the mute store (with no side effect); when the sender is in the
store and `allowTalkingWhenCaptain` is false the hook returns false and the
configured `muteMessage` is sent privately to the sender, even if the sender
is a team captain; when the sender is in the store, `allowTalkingWhenCaptain`
is true and the sender is the first-listed player of the red or blue team,
the message is allowed. -/
theorem claim1_chat_policy (env : Env) (m : MuteMap) (player : Player) :
    (mapHas m player.conn = false → handlePlayerChat env m player = (true, [])) ∧
    (mapHas m player.conn = true → env.config.allowTalkingWhenCaptain = false →
      handlePlayerChat env m player =
        (false, [Effect.announce env.config.muteMessage (some player.id) 0xff0000])) ∧
    (mapHas m player.conn = true → env.config.allowTalkingWhenCaptain = true →
      ((∃ p, env.playerList.find? (fun q => q.team == 1) = some p ∧ p.id = player.id) ∨
       (∃ p, env.playerList.find? (fun q => q.team == 2) = some p ∧ p.id = player.id)) →
      (handlePlayerChat env m player).1 = true) := by
  refine ⟨?_, ?_, ?_⟩
  · intro h
    simp [handlePlayerChat, isMuted, h]
  · intro h1 h2
    simp [handlePlayerChat, isMuted, h1, h2]
  · intro h1 h2 hcap
    have hc : isPlayerTeamCaptain env player = true := by
      unfold isPlayerTeamCaptain
      rcases hcap with ⟨p, hp, hid⟩ | ⟨p, hp, hid⟩
      · rw [hp]
        simp [hid]
      · rw [hp]
        simp [hid]
    simp [handlePlayerChat, isMuted, h1, h2, hc]

/-- Witness for C1: concrete runs of the three cases — an unmuted player is
allowed, a muted red-team captain is suppressed and privately notified when
the captain exception is off, and the same muted captain is allowed when the
exception is on. -/
theorem claim1_chat_policy_witness :
    handlePlayerChat envAll [] pA = (true, []) ∧
    handlePlayerChat envAll [(("a"), pA)] pA =
      (false, [Effect.announce envAll.config.muteMessage (some pA.id) 0xff0000]) ∧
    (handlePlayerChat envCap [(("a"), pA)] pA).1 = true := by
  refine ⟨(claim1_chat_policy envAll [] pA).1 (by decide),
    (claim1_chat_policy envAll [(("a"), pA)] pA).2.1 (by decide) (by decide),
    (claim1_chat_policy envCap [(("a"), pA)] pA).2.2 (by decide) (by decide) ?_⟩
  left
  exact ⟨pA, by decide, rfl⟩

/-- C2: for every mute store reachable by a sequence of mute/unmute
operations, deserializing its serialization yields a store with exactly the
same identity-token-to-snapshot mapping: the same keys and the same snapshot
at every key. -/
theorem claim2_serialize_roundtrip (ops : List MuteOp) :
    mapKeys (deserializeMuteMap (serializeMuteMap (applyOps ops))) =
      mapKeys (applyOps ops) ∧
    ∀ k : String, mapGet (deserializeMuteMap (serializeMuteMap (applyOps ops))) k =
      mapGet (applyOps ops) k := by
  rw [roundTrip_of_nodup (nodup_keys_applyOps ops)]
  exact ⟨rfl, fun _ => rfl⟩

/-- C3 (amended): for an authorized actor and an in-room target resolved by
the mute command, if the target is protected the command announces the
immunity error to the actor and leaves the store unchanged — in particular
the target is never added: if it was not in the store before, it is not in
the store after.  (The claim's stronger conclusion that `has(x)` is false
afterwards unconditionally fails when the store already held the target; see
the counterexample.) -/
theorem claim3_protected_never_added (env : Env) (m : MuteMap) (byPlayer : Player)
    (idArg : JsVal) (x : Player)
    (h1 : isPlayerAllowedToRunCommand env byPlayer = true)
    (h2 : getPlayer env.playerList (parseId idArg) = some x)
    (h3 : isPlayerProtected env x.id = true) :
    muteCmd env m byPlayer idArg =
      (m, [Effect.announce ("This player has immunity for mutes.") (some byPlayer.id) 0xff0000]) ∧
    (mapHas m x.conn = false → mapHas (muteCmd env m byPlayer idArg).1 x.conn = false) := by
  have hmain : muteCmd env m byPlayer idArg =
      (m, [Effect.announce ("This player has immunity for mutes.") (some byPlayer.id) 0xff0000]) := by
    unfold muteCmd
    rw [h1, h2]
    simp [h3]
  exact ⟨hmain, fun hf => by rw [hmain]; exact hf⟩

/-- Witness for C3: the protected player `pB` is not in the store, the
authorized actor mutes them, the immunity error is announced and `pB` is
still not in the store. -/
theorem claim3_protected_never_added_witness :
    muteCmd envProt [] pAdmin (.num 2) =
      ([], [Effect.announce ("This player has immunity for mutes.") (some pAdmin.id) 0xff0000]) ∧
    mapHas (muteCmd envProt [] pAdmin (.num 2)).1 pB.conn = false := by
  obtain ⟨a, b⟩ :=
    claim3_protected_never_added envProt [] pAdmin (.num 2) pB (by decide) (by decide) (by decide)
  exact ⟨a, b (by decide)⟩

/-- Counterexample for C3 as stated: the store already contains the protected
target (such a state is reachable, e.g. restored from a blob persisted before
the target gained the protected role).  The mute command announces the
immunity error, yet `has(x)` is true afterwards, refuting "afterwards
`has(x) = false`". -/
theorem claim3_counterexample :
    isPlayerAllowedToRunCommand envProt pAdmin = true ∧
    pB ∈ envProt.playerList ∧
    isPlayerProtected envProt pB.id = true ∧
    (muteCmd envProt [(("b"), pB)] pAdmin (.num 2)).2 =
      [Effect.announce ("This player has immunity for mutes.") (some pAdmin.id) 0xff0000] ∧
    mapHas (muteCmd envProt [(("b"), pB)] pAdmin (.num 2)).1 pB.conn = true := by
  decide

/-- C4 (amended): the identifier parser returns `n` on the bare number `n`
(for every number, in fact), on the numeral of every integer `n`, and on `#`
followed by that numeral; a string that is not `#`-prefixed and whose
JavaScript numeric coercion is `NaN` parses to the invalid sentinel, as does
a `#`-prefixed string whose suffix coerces to `NaN`.  (The claim's "every
other string is invalid" fails for strings that coerce to a number without
being numerals — the empty string coerces to 0, see the counterexample.  The
parser is a total function, so it never throws.) -/
theorem claim4_parse_identifier (n : ℤ) (q : ℚ) (s : String) :
    parseId (.num q) = some q ∧
    parseId (.str ⟨intNumeral n⟩) = some ((n : ℤ) : ℚ) ∧
    parseId (.str ⟨'#' :: intNumeral n⟩) = some ((n : ℤ) : ℚ) ∧
    (startsWithHash s = false → jsStrToNumber s = none → parseId (.str s) = none) ∧
    (startsWithHash s = true → jsStrToNumber (strDrop1 s) = none → parseId (.str s) = none) :=
  ⟨parseId_num q, parseId_intNumeral n, parseId_hash_intNumeral n,
    fun h1 h2 => parseId_str_nohash_none h1 h2,
    fun h1 h2 => parseId_str_hash_none h1 h2⟩

/-- Witness for C4: the parser at the number 5, the numeral of 12, the
`#`-prefixed numeral of 12, and two non-numeric strings. -/
theorem claim4_parse_identifier_witness :
    parseId (.num 5) = some 5 ∧
    parseId (.str ⟨intNumeral 12⟩) = some ((12 : ℤ) : ℚ) ∧
    parseId (.str ⟨'#' :: intNumeral 12⟩) = some ((12 : ℤ) : ℚ) ∧
    parseId (.str ("abc")) = none ∧
    parseId (.str ("#zz")) = none := by
  obtain ⟨a, b, c, d, _⟩ := claim4_parse_identifier 12 5 ("abc")
  obtain ⟨_, _, _, _, e⟩ := claim4_parse_identifier 12 5 ("#zz")
  exact ⟨a, b, c, d (by decide) (by decide), e (by decide) (by decide)⟩

/-- Counterexample for C4 as stated: the empty string is neither numeric nor
`#`-prefixed, yet the parser returns 0 rather than the invalid sentinel
(JavaScript coerces the empty string to the number 0). -/
theorem claim4_counterexample :
    startsWithHash ("") = false ∧
    parseId (.str ("")) = some 0 ∧
    parseId (.str ("")) ≠ none := by
  decide

/-- C5: a string argument that does not start with `#` — including numeric
strings — makes `removeMute` return none with the store unchanged and no
persistence call, because the loop compares the numeric counter against the
unconverted argument with strict equality; hence the unmute command on such
an argument, run by an authorized actor, removes nothing and announces the
could-not-unmute error. -/
theorem claim5_string_arg_unmute (env : Env) (m : MuteMap) (byPlayer : Player)
    (s : String) (hs : startsWithHash s = false) :
    removeMute env m (.str s) = (none, m, []) ∧
    (isPlayerAllowedToRunCommand env byPlayer = true →
      unmuteCmd env m byPlayer (.str s) =
        (m, [Effect.announce (("Could not unmute ") ++ s ++
          ("! Make sure the argument is either a number listed in !mutelist or player ID prefixed with #."))
          (some byPlayer.id) 0xff0000])) := by
  have hrm : removeMute env m (.str s) = (none, m, []) := by
    unfold removeMute
    simp only [hs, Bool.false_eq_true, if_false]
    unfold removeMuteByIndex
    cases hn : jsToNumber (JsVal.str s) with
    | none => simp [hn]
    | some q2 => simp [hn, removeLoop_str s 0 m]
  refine ⟨hrm, fun hallow => ?_⟩
  simp [unmuteCmd, hallow, hrm, jsValDisplay]

/-- Witness for C5: the store holds one entry; unmuting with the string
`"1"` (a numeric string, as the command dispatcher delivers arguments)
removes nothing and reports the error. -/
theorem claim5_string_arg_unmute_witness :
    removeMute envAll [(("a"), pA)] (.str ("1")) = (none, [(("a"), pA)], []) ∧
    unmuteCmd envAll [(("a"), pA)] pAdmin (.str ("1")) =
      ([(("a"), pA)], [Effect.announce (("Could not unmute ") ++ ("1") ++
        ("! Make sure the argument is either a number listed in !mutelist or player ID prefixed with #."))
        (some pAdmin.id) 0xff0000]) := by
  obtain ⟨a, b⟩ := claim5_string_arg_unmute envAll [(("a"), pA)] pAdmin ("1") (by decide)
  exact ⟨a, b (by decide)⟩

/-- C6 (code evaluation): the mute command's `mutePlayer` and a successful
index removal in `removeMute` both emit a persistence write-through, but the
clearmutes handler empties the store and announces without any persistence
call — the code omits the write-through the claim (and the spec's lifecycle
sentence) requires. -/
theorem claim6_clearmutes_no_persist (env : Env) (m : MuteMap) (byPlayer p : Player)
    (h : isPlayerAllowedToRunCommand env byPlayer = true) :
    clearmutesCmd env m byPlayer =
      ([], [Effect.announce ("All mutes cleared!") none 0x00ff00]) ∧
    Effect.persist ∉ (clearmutesCmd env m byPlayer).2 ∧
    Effect.persist ∈ (mutePlayer m p).2 ∧
    (∀ i : ℕ, i < m.length → Effect.persist ∈ (removeMute env m (.num (i : ℚ))).2.2) := by
  have hclear : clearmutesCmd env m byPlayer =
      ([], [Effect.announce ("All mutes cleared!") none 0x00ff00]) := by
    simp [clearmutesCmd, h]
  refine ⟨hclear, ?_, by simp [mutePlayer], ?_⟩
  · rw [hclear]
    simp
  · intro i hi
    rw [removeMute_num_found hi]
    simp

/-- Witness for C6: with an authorized actor and a one-entry store, clearing
emits only the announcement (no persist), while muting and index-0 unmuting
do persist. -/
theorem claim6_clearmutes_no_persist_witness :
    clearmutesCmd envAll [(("a"), pA)] pAdmin =
      ([], [Effect.announce ("All mutes cleared!") none 0x00ff00]) ∧
    Effect.persist ∉ (clearmutesCmd envAll [(("a"), pA)] pAdmin).2 ∧
    Effect.persist ∈ (mutePlayer [(("a"), pA)] pB).2 ∧
    Effect.persist ∈ (removeMute envAll [(("a"), pA)] (.num ((0 : ℕ) : ℚ))).2.2 := by
  obtain ⟨a, b, c, d⟩ := claim6_clearmutes_no_persist envAll [(("a"), pA)] pAdmin pB (by decide)
  exact ⟨a, b, c, d 0 (by decide)⟩

/-- C7 (amended): re-muting an identity already in the store overwrites its
entry in place — the iteration order of the keys is unchanged (the entry
keeps its original position rather than moving to the end), `has` stays true
and, the store's keys being distinct, the token still has exactly one
entry. -/
theorem claim7_remute_in_place (m : MuteMap) (p : Player)
    (h : mapHas m p.conn = true) :
    mapKeys (mutePlayer m p).1 = mapKeys m ∧
    mapHas (mutePlayer m p).1 p.conn = true ∧
    ((mapKeys m).Nodup → (mapKeys (mutePlayer m p).1).count p.conn = 1) := by
  have hk : mapKeys (mutePlayer m p).1 = mapKeys m := by
    simp only [mutePlayer]
    exact mapKeys_mapSet_of_has h
  refine ⟨hk, ?_, ?_⟩
  · rw [mapHas_iff, hk]
    exact mapHas_iff.mp h
  · intro hnd
    rw [hk]
    exact List.count_eq_one_of_mem hnd (mapHas_iff.mp h)

/-- Witness for C7 (amended): re-muting the player on conn `a` in a
two-entry store keeps the key order and keeps exactly one entry for `a`. -/
theorem claim7_remute_in_place_witness :
    mapKeys (mutePlayer [(("a"), pA), (("b"), pB)] pA2).1 =
      mapKeys [(("a"), pA), (("b"), pB)] ∧
    mapHas (mutePlayer [(("a"), pA), (("b"), pB)] pA2).1 pA2.conn = true ∧
    (mapKeys (mutePlayer [(("a"), pA), (("b"), pB)] pA2).1).count pA2.conn = 1 := by
  obtain ⟨a, b, c⟩ := claim7_remute_in_place [(("a"), pA), (("b"), pB)] pA2 (by decide)
  exact ⟨a, b, c (by decide)⟩

/-- Counterexample for C7 as stated: conn `a` is already muted; re-muting
it leaves the key order `["a", "b"]` — the entry is updated in place, it
does not move to the end (which would give `["b", "a"]`). -/
theorem claim7_counterexample :
    mapHas [(("a"), pA), (("b"), pB)] ("a") = true ∧
    mapKeys (mutePlayer [(("a"), pA), (("b"), pB)] pA2).1 = [("a"), ("b")] ∧
    mapKeys (mutePlayer [(("a"), pA), (("b"), pB)] pA2).1 ≠ [("b"), ("a")] := by
  decide

/-- C8: `removeMute` on the non-negative integer `i` removes and returns the
`i`-th entry (0-based) of the store's current iteration order (persisting),
and returns none leaving the store untouched when no counter value in range
equals the numeric argument — i.e. when it is out of range, negative or not
an integer. -/
theorem claim8_remove_by_index (env : Env) (m : MuteMap) :
    (∀ (i : ℕ) (h : i < m.length),
      removeMute env m (.num (i : ℚ)) =
        (some (m.get ⟨i, h⟩).2, m.eraseIdx i, [Effect.persist])) ∧
    (∀ q : ℚ, (∀ i : ℕ, i < m.length → (i : ℚ) ≠ q) →
      removeMute env m (.num q) = (none, m, [])) :=
  ⟨fun _ h => removeMute_num_found h, fun _ h => removeMute_num_notfound h⟩

/-- Witness for C8: from the store `[A, B, C]`, removing index 1 removes `B`
leaving `[A, C]`; removing index 1 again removes `C`; index 5 (out of range)
and 1/2 (not an integer) remove nothing. -/
theorem claim8_remove_by_index_witness :
    removeMute env0 [(("a"), pA), (("b"), pB), (("c"), pC)] (.num ((1 : ℕ) : ℚ)) =
      (some pB, [(("a"), pA), (("c"), pC)], [Effect.persist]) ∧
    removeMute env0 [(("a"), pA), (("c"), pC)] (.num ((1 : ℕ) : ℚ)) =
      (some pC, [(("a"), pA)], [Effect.persist]) ∧
    removeMute env0 [(("a"), pA), (("c"), pC)] (.num 5) =
      (none, [(("a"), pA), (("c"), pC)], []) ∧
    removeMute env0 [(("a"), pA), (("c"), pC)] (.num (1 / 2)) =
      (none, [(("a"), pA), (("c"), pC)], []) := by
  refine ⟨(claim8_remove_by_index env0 _).1 1 (by decide),
    (claim8_remove_by_index env0 _).1 1 (by decide),
    (claim8_remove_by_index env0 _).2 5 ?_,
    (claim8_remove_by_index env0 _).2 (1 / 2) ?_⟩
  · intro i hi
    have hi2 : i < 2 := by simpa using hi
    interval_cases i <;> norm_num
  · intro i hi
    have hi2 : i < 2 := by simpa using hi
    interval_cases i <;> norm_num

/-- C9: when `canRunCommand` is false for the actor, each of the four
command handlers produces no effect of any kind and leaves the store
unchanged. -/
theorem claim9_denied_silent (env : Env) (m : MuteMap) (byPlayer : Player)
    (idArg muteArg : JsVal)
    (h : isPlayerAllowedToRunCommand env byPlayer = false) :
    muteCmd env m byPlayer idArg = (m, []) ∧
    unmuteCmd env m byPlayer muteArg = (m, []) ∧
    clearmutesCmd env m byPlayer = (m, []) ∧
    mutelistCmd env m byPlayer = (m, []) := by
  refine ⟨?_, ?_, ?_, ?_⟩ <;>
    simp [muteCmd, unmuteCmd, clearmutesCmd, mutelistCmd, h]

/-- Witness for C9: without the roles plugin no actor is authorized, and all
four commands on a nonempty store are silent no-ops. -/
theorem claim9_denied_silent_witness :
    muteCmd env0 [(("a"), pA)] pAdmin (.num 1) = ([(("a"), pA)], []) ∧
    unmuteCmd env0 [(("a"), pA)] pAdmin (.num 0) = ([(("a"), pA)], []) ∧
    clearmutesCmd env0 [(("a"), pA)] pAdmin = ([(("a"), pA)], []) ∧
    mutelistCmd env0 [(("a"), pA)] pAdmin = ([(("a"), pA)], []) :=
  claim9_denied_silent env0 [(("a"), pA)] pAdmin (.num 1) (.num 0) (by decide)

/-- C10: the restore hook called with `undefined` leaves any mute store
exactly as it was — the same keys mapped to the same entries in the same
order. -/
theorem claim10_restore_undefined (m : MuteMap) : handleRestoreData m none = m := rfl

end HrMute
